import Mathlib

/-!
Verification of the `ort` tensor-construction and training-checkpoint layer.

Shallow embedding of `src/value/impl_tensor/create.rs` and `src/training/mod.rs`:
the shape validator (`ToDimensions`), the string-tensor construction path
(`Tensor::<String>::from_string_array`) as an explicit native-call trace, the
owned ndarray construction path (`OwnedTensorArrayData for Array<T, D>`), and
the checkpoint property bridge (`Checkpoint::add_property` / `get_property`).

Machine integers are modelled as `Int` / `Nat`; Rust `Result` as `Except`;
byte strings as `List Nat`.  Errors carry the values the Rust error message
interpolates (offending 1-based index, computed product, expected count),
since the claims are about which values the error reports.
-/

set_option autoImplicit false

namespace Ort

/-- Error taxonomy of the layer, with the data that the Rust error message
interpolates.  `invalidDimension` and `shapeMismatch` correspond to
`Error::new_with_code(ErrorCode::InvalidArgument, ...)` in
`impl_to_dimensions!(@inner)`; `scalarSizeMismatch` to the error in
`impl ToDimensions for ()`; `embeddedNul` to the `CString::new` failure wrapped
by `Error::wrap` in `from_string_array`; `nativeStatus` to a non-success status
returned by a native entry point. -/
inductive OrtError where
  /-- "Invalid dimension #{i+1}; all dimensions must be >= 1 ..." — the payload
  is the 1-based index reported in the message. -/
  | invalidDimension (index : Nat)
  /-- "Cannot create a tensor from raw data; shape {v} ({sum} elements) is
  larger than the length of the data provided ({expected} elements)" — payload
  is the validated shape, the computed element count and the expected count. -/
  | shapeMismatch (shape : List Int) (computed : Nat) (expected : Nat)
  /-- "Expected data to have a length of exactly 1 for scalar shape". -/
  | scalarSizeMismatch
  /-- An element handed to `CString::new` contained an embedded null byte. -/
  | embeddedNul
  /-- A native entry point returned a non-success status. -/
  | nativeStatus
  deriving Repr, DecidableEq

/-- Modelled from the spec: `crate::util::element_count` is not among the shown
sources; per §4.1 the element count of a validated shape is "the product of all
dimensions".  It is only ever applied to shapes whose entries have already been
validated to be `>= 1`. -/
def element_count (shape : List Int) : Nat :=
  (shape.map Int.toNat).foldl (· * ·) 1

/-- The per-entry pass of `impl_to_dimensions!(@inner)`:
`self.iter().enumerate().map(...).collect::<Result<_>>()`.  Each entry `c` with
0-based index `i` yields `Ok(c as i64)` when `c >= 1` and otherwise the
`InvalidArgument` error naming index `i + 1`; `collect` over `Result`
short-circuits at the first error.  `i` is the 0-based index of the head. -/
def checkDims : List Int → Nat → Except OrtError (List Int)
  | [], _ => .ok []
  | c :: rest, i =>
    if 1 ≤ c then
      match checkDims rest (i + 1) with
      | .ok v => .ok (c :: v)
      | .error e => .error e
    else
      .error (.invalidDimension (i + 1))

/-- `ToDimensions::to_dimensions` as produced by `impl_to_dimensions!(@inner)`
for the slice / vector / fixed-array instances over `i64` (the `i32` and
`usize` instances are the same macro body; their entries embed into `Int`).
Validates every entry `>= 1`, then — when an expected element count is supplied
— requires the product of the dimensions to equal it exactly. -/
def to_dimensions (dims : List Int) (expected_size : Option Nat) :
    Except OrtError (List Int) :=
  match checkDims dims 0 with
  | .error e => .error e
  | .ok v =>
    let sum := element_count v
    match expected_size with
    | some expected =>
      if sum ≠ expected then
        .error (.shapeMismatch v sum expected)
      else
        .ok v
    | none => .ok v

/-- `impl ToDimensions for ()` — the scalar shape: valid only when the expected
element count is exactly 1 or unspecified. -/
def unit_to_dimensions (expected_size : Option Nat) : Except OrtError (List Int) :=
  match expected_size with
  | some 1 => .ok []
  | none => .ok []
  | some _ => .error .scalarSizeMismatch

/-- `checkDims` succeeds and is the identity when every entry is at least 1;
the starting index is irrelevant to success. -/
theorem checkDims_ok_of_all_pos (dims : List Int) (i : Nat)
    (h : ∀ d ∈ dims, 1 ≤ d) : checkDims dims i = .ok dims := by
  induction dims generalizing i with
  | nil => rfl
  | cons c rest ih =>
    have hc : 1 ≤ c := h c (List.mem_cons_self c rest)
    have hrest : ∀ d ∈ rest, 1 ≤ d := fun d hd => h d (List.mem_cons_of_mem c hd)
    simp [checkDims, hc, ih (i + 1) hrest]

/-- If some entry is non-positive, `checkDims` fails naming `j + i + 1` where
`j` is the 0-based position of the first non-positive entry. -/
theorem checkDims_error_of_neg (dims : List Int) (i : Nat)
    (h : ∃ d ∈ dims, d ≤ 0) :
    ∃ j, ∃ hj : j < dims.length, dims.get ⟨j, hj⟩ ≤ 0 ∧
      checkDims dims i = .error (.invalidDimension (j + i + 1)) := by
  induction dims generalizing i with
  | nil => simp at h
  | cons c rest ih =>
    by_cases hc : 1 ≤ c
    · have hrest : ∃ d ∈ rest, d ≤ 0 := by
        rcases h with ⟨d, hd, hdle⟩
        rcases List.mem_cons.mp hd with rfl | hd'
        · omega
        · exact ⟨d, hd', hdle⟩
      rcases ih (i + 1) hrest with ⟨j, hj, hget, heq⟩
      refine ⟨j + 1, by simpa using Nat.succ_lt_succ hj, by simpa using hget, ?_⟩
      have : j + (i + 1) + 1 = j + 1 + i + 1 := by omega
      simp [checkDims, hc, heq, this]
    · exact ⟨0, by simp, by simpa using (by omega : c ≤ 0), by simp [checkDims, hc]⟩

/-- Claim C1: for every dimension sequence in which every entry is `>= 1`,
`to_dimensions` succeeds and returns exactly those dimensions in order (both
with no expected element count and with the matching expected count); for any
sequence containing an entry `<= 0`, it fails with a validation error naming
that entry's index 1-based. -/
theorem to_dimensions_spec (dims : List Int) :
    ((∀ d ∈ dims, 1 ≤ d) →
      to_dimensions dims none = .ok dims ∧
      to_dimensions dims (some (element_count dims)) = .ok dims) ∧
    ((∃ d ∈ dims, d ≤ 0) → ∀ expected_size,
      ∃ j, ∃ hj : j < dims.length, dims.get ⟨j, hj⟩ ≤ 0 ∧
        to_dimensions dims expected_size = .error (.invalidDimension (j + 1))) := by
  constructor
  · intro h
    have hok := checkDims_ok_of_all_pos dims 0 h
    constructor
    · simp [to_dimensions, hok]
    · simp [to_dimensions, hok]
  · intro h expected_size
    rcases checkDims_error_of_neg dims 0 h with ⟨j, hj, hget, heq⟩
    exact ⟨j, hj, hget, by simp [to_dimensions, heq]⟩

/-- Witness for C1: shape `[2, 3]` validates to itself (with and without the
matching expected count 6), and `[2, 0, 3]` fails naming dimension #2. -/
theorem to_dimensions_spec_witness :
    (to_dimensions [2, 3] none = .ok [2, 3] ∧
      to_dimensions [2, 3] (some 6) = .ok [2, 3]) ∧
    to_dimensions [2, 0, 3] (some 6) = .error (.invalidDimension 2) := by
  have h1 := (to_dimensions_spec [2, 3]).1 (by decide)
  have h2 := (to_dimensions_spec [2, 0, 3]).2 (by decide) (some 6)
  refine ⟨⟨h1.1, by simpa [element_count] using h1.2⟩, ?_⟩
  rcases h2 with ⟨j, hj, hget, heq⟩
  have hjb : j < 3 := hj
  interval_cases j
  · simp at hget
  · exact heq
  · simp at hget

/-- Claim C2: for every non-empty all-positive dimension sequence and supplied
expected element count, `to_dimensions` succeeds iff the product of the
dimensions equals the expected count exactly; on any mismatch it fails with a
validation error reporting both the computed product and the expected count. -/
theorem to_dimensions_expected_spec (dims : List Int) (expected : Nat)
    (_hne : dims ≠ []) (h : ∀ d ∈ dims, 1 ≤ d) :
    (to_dimensions dims (some expected) = .ok dims ↔ element_count dims = expected) ∧
    (element_count dims ≠ expected →
      to_dimensions dims (some expected) =
        .error (.shapeMismatch dims (element_count dims) expected)) := by
  have hok := checkDims_ok_of_all_pos dims 0 h
  constructor
  · constructor
    · intro heq
      by_contra hne'
      simp [to_dimensions, hok, hne'] at heq
    · intro heq
      simp [to_dimensions, hok, heq]
  · intro hne'
    simp [to_dimensions, hok, hne']

/-- Witness for C2: shape `[2, 3]` with expected count 6 succeeds; the product
6 indeed equals 6; with expected count 5 it fails reporting computed 6 and
expected 5. -/
theorem to_dimensions_expected_spec_witness :
    ([2, 3] : List Int) ≠ [] ∧ (∀ d ∈ ([2, 3] : List Int), 1 ≤ d) ∧
    to_dimensions [2, 3] (some 6) = .ok [2, 3] ∧
    to_dimensions [2, 3] (some 5) = .error (.shapeMismatch [2, 3] 6 5) := by
  have h6 := to_dimensions_expected_spec [2, 3] 6 (by decide) (by decide)
  have h5 := to_dimensions_expected_spec [2, 3] 5 (by decide) (by decide)
  refine ⟨by decide, by decide, h6.1.mpr (by decide), ?_⟩
  have := h5.2 (by decide)
  simpa [element_count] using this

/-- Claim C3: the empty shape `()` validates (to the empty dimension list,
denoting a scalar) iff the expected element count is exactly 1 or unspecified;
any other expected count (zero or more than one) is a validation error. -/
theorem unit_to_dimensions_spec (expected_size : Option Nat) :
    (unit_to_dimensions expected_size = .ok [] ↔
      expected_size = some 1 ∨ expected_size = none) ∧
    (expected_size ≠ some 1 → expected_size ≠ none →
      unit_to_dimensions expected_size = .error .scalarSizeMismatch) := by
  constructor
  · constructor
    · intro h
      match expected_size with
      | none => exact Or.inr rfl
      | some 1 => exact Or.inl rfl
      | some 0 => simp [unit_to_dimensions] at h
      | some (n + 2) => simp [unit_to_dimensions] at h
    · rintro (rfl | rfl) <;> rfl
  · intro h1 h2
    match expected_size with
    | none => exact absurd rfl h2
    | some 1 => exact absurd rfl h1
    | some 0 => rfl
    | some (n + 2) => rfl

/-- Witness for C3: the scalar shape with expected count 1 succeeds, and with
expected counts 0 and 3 it fails with the validation error. -/
theorem unit_to_dimensions_spec_witness :
    unit_to_dimensions (some 1) = .ok [] ∧
    unit_to_dimensions (some 0) = .error .scalarSizeMismatch ∧
    unit_to_dimensions (some 3) = .error .scalarSizeMismatch := by
  refine ⟨(unit_to_dimensions_spec (some 1)).1.mpr (Or.inl rfl),
    (unit_to_dimensions_spec (some 0)).2 (by decide) (by decide),
    (unit_to_dimensions_spec (some 3)).2 (by decide) (by decide)⟩

/-! ### String tensor construction (`Tensor::<String>::from_string_array`)

The function is modelled as an explicit trace of the native entry points it
invokes, in program order, paired with its result.  The input is the
`(shape, data)` tuple instance of `TensorArrayData`, whose `ref_parts`
validates the shape against the data length via
`shape.to_dimensions(Some(data.len()))`.  Strings are byte lists; native
status outcomes are supplied by a `StringEngine` oracle. -/

/-- The native entry points that `from_string_array` may touch, plus the
`ReleaseValue` entry point that releasing a partially constructed `OrtValue`
would require. -/
inductive NativeCall where
  | createTensorAsOrtValue
  | fillStringTensor
  | releaseValue
  deriving Repr, DecidableEq

/-- Status outcomes of the two native calls in `from_string_array`:
`createOk` is the status of `CreateTensorAsOrtValue`, `fillOk` of
`FillStringTensor`. -/
structure StringEngine where
  createOk : Bool
  fillOk : Bool
  deriving Repr, DecidableEq

/-- The fields of the returned `Value`'s `ValueInner` that the claims are
about: the stored dimensions, the `drop: true` ownership flag, and the absence
of a retained backing buffer (`_backing: None`). -/
structure StringTensorValue where
  dimensions : List Int
  drop : Bool
  hasBacking : Bool
  deriving Repr, DecidableEq

/-- `CString::new` fails exactly when the byte string contains an embedded
null byte. -/
def hasNulByte (s : List Nat) : Bool :=
  s.contains 0

/-- `Tensor::<String>::from_string_array`, step for step:
1. `input.ref_parts()` — the tuple instance validates `shape` against
   `data.len()` (no native call);
2. `CreateTensorAsOrtValue` (native), propagating a non-success status;
3. `CString::new` on every element, short-circuiting at an embedded null byte
   (the error is wrapped and returned — note: with no release of `value_ptr`);
4. `FillStringTensor` (native), propagating a non-success status (again with
   no release of `value_ptr`);
5. on success, the handle is wrapped with `drop: true` and `_backing: None`.
Returns the ordered trace of native calls alongside the result. -/
def from_string_array (eng : StringEngine) (shape : List Int)
    (data : List (List Nat)) : List NativeCall × Except OrtError StringTensorValue :=
  match to_dimensions shape (some data.length) with
  | .error e => ([], .error e)
  | .ok dims =>
    if eng.createOk = false then
      ([.createTensorAsOrtValue], .error .nativeStatus)
    else if data.any hasNulByte then
      ([.createTensorAsOrtValue], .error .embeddedNul)
    else if eng.fillOk = false then
      ([.createTensorAsOrtValue, .fillStringTensor], .error .nativeStatus)
    else
      ([.createTensorAsOrtValue, .fillStringTensor],
        .ok { dimensions := dims, drop := true, hasBacking := false })

/-- Counterexample to C4 as stated: for the input `([1], ["a\x00"])` (one
string with an embedded null byte) and a native engine whose calls all
succeed, `from_string_array` does fail with the invalid-string-data error, but
the native `CreateTensorAsOrtValue` entry point has already been invoked
before that error is detected — the trace preceding the error is not empty. -/
theorem from_string_array_nul_after_native :
    (from_string_array ⟨true, true⟩ [1] [[97, 0]]).2 = .error .embeddedNul ∧
    (from_string_array ⟨true, true⟩ [1] [[97, 0]]).1 = [.createTensorAsOrtValue] ∧
    (from_string_array ⟨true, true⟩ [1] [[97, 0]]).1 ≠ [] := by
  refine ⟨rfl, rfl, ?_⟩
  intro h
  simp [from_string_array, to_dimensions, checkDims, element_count, hasNulByte] at h

/-- Claim C4 (amended): for every input with a valid shape in which some
string element contains an embedded null byte, and a native engine whose
`CreateTensorAsOrtValue` succeeds, `from_string_array` fails with the
invalid-string-data validation error; the error is detected after the native
`CreateTensorAsOrtValue` call but before `FillStringTensor` is invoked (the
trace is exactly `[CreateTensorAsOrtValue]`). -/
theorem from_string_array_nul_spec (eng : StringEngine) (shape : List Int)
    (data : List (List Nat)) (dims : List Int)
    (hshape : to_dimensions shape (some data.length) = .ok dims)
    (hcreate : eng.createOk = true) (hnul : data.any hasNulByte = true) :
    (from_string_array eng shape data).2 = .error .embeddedNul ∧
    (from_string_array eng shape data).1 = [.createTensorAsOrtValue] := by
  constructor <;> simp [from_string_array, hshape, hcreate, hnul]

/-- Witness for the amended C4 at the input `([1], ["a\x00"])` with an
all-successful engine. -/
theorem from_string_array_nul_spec_witness :
    to_dimensions [1] (some 1) = .ok [1] ∧
    (from_string_array ⟨true, true⟩ [1] [[97, 0]]).2 = .error .embeddedNul ∧
    (from_string_array ⟨true, true⟩ [1] [[97, 0]]).1 = [.createTensorAsOrtValue] := by
  have h := from_string_array_nul_spec ⟨true, true⟩ [1] [[97, 0]] [1] rfl rfl rfl
  exact ⟨rfl, h.1, h.2⟩

/-- Claim C5 evaluated at its failing inputs: after `CreateTensorAsOrtValue`
has succeeded, both late error paths of `from_string_array` — an embedded null
byte in a string element (input `([1], ["a\x00"])`) and a `FillStringTensor`
failure (input `([1], ["a"])` with a failing fill) — return the error without
any release of the created native value handle (`ReleaseValue` never appears
in the trace), whereas the success path (input `([1], ["h"])`) retains the
handle in the returned value with `drop: true` so that it is released at
destruction.  The partially constructed handle is therefore leaked on the
error paths, contradicting the claim's cleanup requirement. -/
theorem from_string_array_leak :
    ((from_string_array ⟨true, true⟩ [1] [[97, 0]]).2 = .error .embeddedNul ∧
      NativeCall.createTensorAsOrtValue ∈ (from_string_array ⟨true, true⟩ [1] [[97, 0]]).1 ∧
      NativeCall.releaseValue ∉ (from_string_array ⟨true, true⟩ [1] [[97, 0]]).1) ∧
    ((from_string_array ⟨true, false⟩ [1] [[97]]).2 = .error .nativeStatus ∧
      NativeCall.createTensorAsOrtValue ∈ (from_string_array ⟨true, false⟩ [1] [[97]]).1 ∧
      NativeCall.releaseValue ∉ (from_string_array ⟨true, false⟩ [1] [[97]]).1) ∧
    (from_string_array ⟨true, true⟩ [1] [[104]]).2 =
      .ok { dimensions := [1], drop := true, hasBacking := false } := by
  refine ⟨⟨rfl, ?_, ?_⟩, ⟨rfl, ?_, ?_⟩, rfl⟩ <;> decide

/-! ### Owned multi-dimensional arrays (`OwnedTensorArrayData for Array<T, D>`)

`ndarray` is an external collaborator; an owned array is modelled at its
interface as a shape, a strides vector (in elements, non-negative layouts) and
a flat physical buffer.  `is_standard_layout` holds when the strides are the
contiguous row-major strides of the shape; `as_standard_layout().into_owned()`
produces a fresh buffer holding the elements in logical row-major order. -/

/-- Row-major contiguous strides of a shape: the stride of an axis is the
product of all later dimensions. -/
def standardStrides : List Nat → List Nat
  | [] => []
  | _ :: rest => rest.prod :: standardStrides rest

/-- Linear offset of a multi-index under a strides vector. -/
def dotOffset (strides idx : List Nat) : Nat :=
  (List.zipWith (· * ·) strides idx).sum

/-- All multi-indices of a shape, in row-major (lexicographic) order. -/
def allIndices : List Nat → List (List Nat)
  | [] => [[]]
  | d :: rest => (List.range d).flatMap (fun i => (allIndices rest).map (i :: ·))

/-- Interface model of an owned `ndarray::Array<T, D>`. -/
structure NdArray (α : Type) where
  shape : List Nat
  strides : List Nat
  buffer : List α
  deriving Repr, DecidableEq

/-- The elements of the array in logical row-major order: each multi-index is
resolved through the strides into the physical buffer.  This is the
"standard-layout traversal" of the array. -/
def NdArray.logicalElems {α : Type} [Inhabited α] (a : NdArray α) : List α :=
  (allIndices a.shape).map (fun ix => a.buffer.getD (dotOffset a.strides ix) default)

/-- `self.as_standard_layout().into_owned()`: same shape, contiguous row-major
strides, and a freshly copied buffer holding the logical elements in order. -/
def NdArray.as_standard_layout {α : Type} [Inhabited α] (a : NdArray α) : NdArray α :=
  { shape := a.shape, strides := standardStrides a.shape, buffer := a.logicalElems }

/-- The retained backing recorded in `TensorArrayDataParts.guard`: either the
boxed original array (`Box::new(self)`, no copy) or the boxed contiguous copy
(`Box::new(contiguous_array)`). -/
inductive NdGuard (α : Type) where
  | originalArray (a : NdArray α)
  | copiedArray (a : NdArray α)
  deriving Repr, DecidableEq

/-- `TensorArrayDataParts { shape, ptr, num_elements, guard }`: the pointer is
modelled by the list of elements it addresses. -/
structure TensorArrayDataParts (α : Type) where
  shape : List Int
  dataList : List α
  num_elements : Nat
  guard : NdGuard α
  deriving Repr, DecidableEq

/-- `OwnedTensorArrayData::into_parts` for `Array<T, D>`: if the array is in
standard layout, its buffer is used as is and the array itself becomes the
guard; otherwise `as_standard_layout().into_owned()` makes a contiguous copy,
which supplies the data and becomes the guard.  Both branches return `Ok`. -/
def NdArray.into_parts {α : Type} [Inhabited α] (a : NdArray α) :
    Except OrtError (TensorArrayDataParts α) :=
  if a.strides = standardStrides a.shape then
    .ok ⟨a.shape.map Int.ofNat, a.buffer, a.shape.prod, .originalArray a⟩
  else
    .ok ⟨a.as_standard_layout.shape.map Int.ofNat, a.as_standard_layout.buffer,
      a.as_standard_layout.shape.prod, .copiedArray a.as_standard_layout⟩

theorem range_mul_flatMap (d P : Nat) :
    List.range (d * P) =
      (List.range d).flatMap (fun i => (List.range P).map (fun o => P * i + o)) := by
  induction d with
  | zero => simp
  | succ d ih =>
    rw [List.range_succ, List.flatMap_append, ← ih, Nat.succ_mul, List.range_add]
    simp [Nat.mul_comm]

/-- Under standard strides, the offsets of the row-major multi-indices of a
shape enumerate `0, 1, ..., prod - 1` in order. -/
theorem offsets_standard (s : List Nat) :
    (allIndices s).map (dotOffset (standardStrides s)) = List.range s.prod := by
  induction s with
  | nil => decide
  | cons d rest ih =>
    have inner : ∀ i : Nat,
        ((allIndices rest).map (i :: ·)).map (dotOffset (standardStrides (d :: rest)))
          = (List.range rest.prod).map (fun o => rest.prod * i + o) := by
      intro i
      rw [List.map_map]
      have hfun : dotOffset (standardStrides (d :: rest)) ∘ (i :: ·)
          = (fun o => rest.prod * i + o) ∘ dotOffset (standardStrides rest) := by
        funext ix
        simp [standardStrides, dotOffset, Function.comp]
      rw [hfun, ← List.map_map, ih]
    calc (allIndices (d :: rest)).map (dotOffset (standardStrides (d :: rest)))
        = (List.range d).flatMap
            (fun i => ((allIndices rest).map (i :: ·)).map
              (dotOffset (standardStrides (d :: rest)))) := by
          simp [allIndices, List.map_flatMap]
      _ = (List.range d).flatMap
            (fun i => (List.range rest.prod).map (fun o => rest.prod * i + o)) := by
          simp only [inner]
      _ = List.range (d :: rest).prod := by
          rw [List.prod_cons, range_mul_flatMap]

theorem map_getD_range {α : Type} (l : List α) (d : α) :
    (List.range l.length).map (fun n => l.getD n d) = l := by
  apply List.ext_getElem
  · simp
  · intro i h1 h2
    simp [List.getElem?_eq_getElem, h2, List.getD]

/-- A standard-layout array of the right buffer length reads back its own
buffer under the row-major traversal: the reused pointer and the
standard-layout traversal agree. -/
theorem standard_buffer_eq_logical {α : Type} [Inhabited α] (a : NdArray α)
    (hstd : a.strides = standardStrides a.shape)
    (hlen : a.buffer.length = a.shape.prod) :
    a.buffer = a.logicalElems := by
  unfold NdArray.logicalElems
  rw [hstd]
  have h1 : (allIndices a.shape).map
        (fun ix => a.buffer.getD (dotOffset (standardStrides a.shape) ix) default)
      = ((allIndices a.shape).map (dotOffset (standardStrides a.shape))).map
          (fun n => a.buffer.getD n default) := by
    rw [List.map_map]
    rfl
  rw [h1, offsets_standard, ← hlen, map_getD_range]

/-- Claim C6: for every owned multi-dimensional array, `into_parts` succeeds;
if the array is already in standard (row-major contiguous) layout its existing
buffer is used as the data without copying and the array itself is the
retained guard (and, when the buffer has the expected length, that buffer
already equals the standard-layout traversal); otherwise the contiguous copy
`as_standard_layout` supplies the data — which equals the standard-layout
traversal of the original array — and that copy is the retained guard. -/
theorem array_into_parts_spec {α : Type} [Inhabited α] (a : NdArray α) :
    (a.strides = standardStrides a.shape →
      a.into_parts = .ok ⟨a.shape.map Int.ofNat, a.buffer, a.shape.prod, .originalArray a⟩ ∧
      (a.buffer.length = a.shape.prod → a.buffer = a.logicalElems)) ∧
    (a.strides ≠ standardStrides a.shape →
      a.into_parts =
        .ok ⟨a.shape.map Int.ofNat, a.logicalElems, a.shape.prod,
          .copiedArray a.as_standard_layout⟩) := by
  constructor
  · intro hstd
    exact ⟨by simp [NdArray.into_parts, hstd],
      fun hlen => standard_buffer_eq_logical a hstd hlen⟩
  · intro hstd
    simp [NdArray.into_parts, hstd, NdArray.as_standard_layout]

/-- Witness for C6: the standard-layout 2×2 array with buffer
`[10, 20, 30, 40]` is passed through without copying (guard is the original
array, and its buffer equals its traversal); the transposed array (strides
`[1, 2]`) is copied, yielding the standard-layout traversal
`[10, 30, 20, 40]` with the copy as guard. -/
theorem array_into_parts_spec_witness :
    (NdArray.mk [2, 2] [2, 1] [10, 20, 30, 40] : NdArray Nat).into_parts =
      .ok ⟨[2, 2], [10, 20, 30, 40], 4,
        .originalArray (NdArray.mk [2, 2] [2, 1] [10, 20, 30, 40])⟩ ∧
    (NdArray.mk [2, 2] [2, 1] [10, 20, 30, 40] : NdArray Nat).buffer =
      (NdArray.mk [2, 2] [2, 1] [10, 20, 30, 40] : NdArray Nat).logicalElems ∧
    (NdArray.mk [2, 2] [1, 2] [10, 20, 30, 40] : NdArray Nat).into_parts =
      .ok ⟨[2, 2], [10, 30, 20, 40], 4,
        .copiedArray (NdArray.mk [2, 2] [2, 1] [10, 30, 20, 40])⟩ := by
  have h1 := (array_into_parts_spec (NdArray.mk [2, 2] [2, 1] [10, 20, 30, 40] : NdArray Nat)).1
    (by decide)
  have h2 := (array_into_parts_spec (NdArray.mk [2, 2] [1, 2] [10, 20, 30, 40] : NdArray Nat)).2
    (by decide)
  refine ⟨?_, h1.2 (by decide), ?_⟩
  · rw [h1.1]
    rfl
  · rw [h2]
    rfl

/-! ### Checkpoint property bridge (`Checkpoint::add_property` / `get_property`)

Property names and string values are byte lists.  The `f32` payload of a
Float property carries no arithmetic in this layer, so it is modelled opaquely
by its bit pattern.  The native `GetProperty` call is modelled by an oracle
reply (a status plus the typed out-value); the native property store behind
`AddProperty` / `GetProperty` is modelled at its interface (spec §6) as an
association list. -/

/-- `Property` — tagged union Int(i64) | Float(f32) | String. -/
inductive Property where
  | int (value : Int)
  | float (bits : Nat)
  | str (value : List Nat)
  deriving Repr, DecidableEq

/-- The out-parameters of one native `GetProperty` call: the status
(`ok = true` iff success) and, on success, the property type tag together
with the value behind the out-pointer (the tag selects which branch of the
`match` reads it). -/
structure GetPropertyReply where
  ok : Bool
  value : Property
  deriving Repr, DecidableEq

/-- `Checkpoint::get_property`, step for step, against an oracle reply for
the native call.  Returns the result together with the number of
`allocator.free` calls performed:
1. `CString::new(name).ok()?` — a name with an embedded null byte yields
   `None` (no native call, nothing freed);
2. a non-success status from `GetProperty` yields `None` via
   `status_to_result(...).ok()?` (nothing freed);
3. `Int` / `Float` payloads are read inline (nothing freed); a `String`
   payload is copied and then the native buffer is freed through the
   allocator — exactly one `free`. -/
def get_property_raw (reply : GetPropertyReply) (name : List Nat) :
    Option Property × Nat :=
  if hasNulByte name then (none, 0)
  else if reply.ok = false then (none, 0)
  else
    match reply.value with
    | .int v => (some (.int v), 0)
    | .float b => (some (.float b), 0)
    | .str s => (some (.str s), 1)

/-- Interface model of the native checkpoint property store. -/
def CheckpointProps : Type :=
  List (List Nat × Property)

/-- Lookup in the native property store (most recently added entry wins). -/
def lookupProp : CheckpointProps → List Nat → Option Property
  | [], _ => none
  | (k, v) :: rest, name => if k = name then some v else lookupProp rest name

/-- `Checkpoint::add_property`: the name (and, for a String property, the
value) goes through `CString::new`, so an embedded null byte is an error;
otherwise the native `AddProperty` stores the typed value. -/
def add_property (st : CheckpointProps) (name : List Nat) (p : Property) :
    Except OrtError CheckpointProps :=
  if hasNulByte name then .error .embeddedNul
  else
    match p with
    | .str s => if hasNulByte s then .error .embeddedNul else .ok ((name, p) :: st)
    | _ => .ok ((name, p) :: st)

/-- The native `GetProperty` reply induced by the property store: success
with the stored value when the name is present, a non-success status when it
is absent. -/
def getPropertyReplyOf (st : CheckpointProps) (name : List Nat) : GetPropertyReply :=
  match lookupProp st name with
  | some v => ⟨true, v⟩
  | none => ⟨false, .int 0⟩

/-- `Checkpoint::get_property` against the property store. -/
def get_property (st : CheckpointProps) (name : List Nat) : Option Property :=
  (get_property_raw (getPropertyReplyOf st name) name).1

/-- Claim C7: whenever `get_property` yields a String-typed property, the
native-allocated buffer is freed through the allocator exactly once; whenever
it yields anything else (an Int or Float property, or no value), nothing is
freed. -/
theorem get_property_free_spec (reply : GetPropertyReply) (name : List Nat) :
    ((∃ s, (get_property_raw reply name).1 = some (.str s)) →
      (get_property_raw reply name).2 = 1) ∧
    ((∀ s, (get_property_raw reply name).1 ≠ some (.str s)) →
      (get_property_raw reply name).2 = 0) := by
  by_cases hn : hasNulByte name
  · constructor
    · rintro ⟨s, hs⟩
      simp [get_property_raw, hn] at hs
    · intro _
      simp [get_property_raw, hn]
  · by_cases hok : reply.ok = false
    · constructor
      · rintro ⟨s, hs⟩
        simp [get_property_raw, hn, hok] at hs
      · intro _
        simp [get_property_raw, hn, hok]
    · match hv : reply.value with
      | .int v => exact ⟨by rintro ⟨s, hs⟩; simp [get_property_raw, hn, hok, hv] at hs,
          fun _ => by simp [get_property_raw, hn, hok, hv]⟩
      | .float b => exact ⟨by rintro ⟨s, hs⟩; simp [get_property_raw, hn, hok, hv] at hs,
          fun _ => by simp [get_property_raw, hn, hok, hv]⟩
      | .str s => exact ⟨fun _ => by simp [get_property_raw, hn, hok, hv],
          fun h => absurd (by simp [get_property_raw, hn, hok, hv]) (h s)⟩

/-- Witness for C7: retrieving a stored String property performs exactly one
free, retrieving an Int property performs none. -/
theorem get_property_free_spec_witness :
    (get_property_raw ⟨true, .str [104, 105]⟩ [107]).2 = 1 ∧
    (get_property_raw ⟨true, .int 5⟩ [107]).2 = 0 := by
  refine ⟨(get_property_free_spec ⟨true, .str [104, 105]⟩ [107]).1 ⟨[104, 105], rfl⟩,
    (get_property_free_spec ⟨true, .int 5⟩ [107]).2 ?_⟩
  intro s
  simp [get_property_raw, hasNulByte]

/-- Claim C8: a property stored with `add_property` is returned by
`get_property` as the same typed value, while a name with no entry in the
checkpoint yields no value (`none`) rather than an error. -/
theorem checkpoint_property_roundtrip (st : CheckpointProps) (name : List Nat)
    (p : Property) :
    (∀ st', add_property st name p = .ok st' → get_property st' name = some p) ∧
    (lookupProp st name = none → get_property st name = none) := by
  constructor
  · intro st' hadd
    have hn : hasNulByte name = false := by
      by_contra h
      simp [add_property, eq_true_of_ne_false h] at hadd
    have hst' : st' = (name, p) :: st := by
      match p with
      | .int v => simpa [add_property, hn] using hadd.symm
      | .float b => simpa [add_property, hn] using hadd.symm
      | .str s =>
        by_cases hs : hasNulByte s
        · simp [add_property, hn, hs] at hadd
        · simpa [add_property, hn, hs] using hadd.symm
    subst hst'
    have hlook : lookupProp ((name, p) :: st) name = some p := by
      simp [lookupProp]
    match p with
    | .int v => simp [get_property, getPropertyReplyOf, hlook, get_property_raw, hn]
    | .float b => simp [get_property, getPropertyReplyOf, hlook, get_property_raw, hn]
    | .str s => simp [get_property, getPropertyReplyOf, hlook, get_property_raw, hn]
  · intro hmiss
    simp [get_property, getPropertyReplyOf, hmiss, get_property_raw]

/-- Witness for C8: `add_property "epoch" (Int 5)` followed by
`get_property "epoch"` yields `Int 5`; `get_property "missing"` on the empty
checkpoint yields no value.  (`[101, 112, 111, 99, 104]` is "epoch",
`[109, 105, 115, 115]` is "miss".) -/
theorem checkpoint_property_roundtrip_witness :
    get_property [([101, 112, 111, 99, 104], Property.int 5)] [101, 112, 111, 99, 104] =
      some (Property.int 5) ∧
    get_property [] [109, 105, 115, 115] = none := by
  refine ⟨(checkpoint_property_roundtrip [] [101, 112, 111, 99, 104] (.int 5)).1
    [([101, 112, 111, 99, 104], Property.int 5)] rfl,
    (checkpoint_property_roundtrip [] [109, 105, 115, 115] (.int 5)).2 rfl⟩

/-- Claim C10: `get_property` cannot surface an error: a name containing an
embedded null byte, and any non-success status from the native `GetProperty`
call (not only an unknown name), both produce the result `none` with nothing
freed — exactly the result produced for a property that is missing from the
store. -/
theorem get_property_never_errors (reply : GetPropertyReply) (name : List Nat) :
    (hasNulByte name = true → get_property_raw reply name = (none, 0)) ∧
    (reply.ok = false → get_property_raw reply name = (none, 0)) ∧
    (hasNulByte name = true ∨ reply.ok = false →
      (get_property_raw reply name).1 = get_property [] name) := by
  refine ⟨fun hn => by simp [get_property_raw, hn], fun hok => ?_, fun h => ?_⟩
  · by_cases hn : hasNulByte name
    · simp [get_property_raw, hn]
    · simp [get_property_raw, hn, hok]
  · have hempty : get_property [] name = none := by
      simp [get_property, getPropertyReplyOf, lookupProp, get_property_raw]
    rcases h with hn | hok
    · simp [get_property_raw, hn, hempty]
    · by_cases hn : hasNulByte name
      · simp [get_property_raw, hn, hempty]
      · simp [get_property_raw, hn, hok, hempty]

/-- Witness for C10: the name `"a\x00"` (embedded null byte) yields `none`,
and a failing native status with a clean name also yields `none` — both equal
to the missing-property result. -/
theorem get_property_never_errors_witness :
    get_property_raw ⟨true, .int 5⟩ [97, 0] = (none, 0) ∧
    get_property_raw ⟨false, .int 5⟩ [97] = (none, 0) ∧
    (get_property_raw ⟨false, .int 5⟩ [97]).1 = get_property [] [97] := by
  exact ⟨(get_property_never_errors ⟨true, .int 5⟩ [97, 0]).1 rfl,
    (get_property_never_errors ⟨false, .int 5⟩ [97]).2.1 rfl,
    (get_property_never_errors ⟨false, .int 5⟩ [97]).2.2 (Or.inr rfl)⟩

end Ort
